import Mathlib

/-!
Verification of the rCore-Tutorial-v3 (ch3 branch) kernel spec against the
source in `os/src`.  The Rust code is shallowly embedded: the task scheduler
(`os/src/task/mod.rs`), the per-task timing metric (`os/src/task/metric.rs`),
the user-trap dispatch (`os/src/trap/mod.rs`) and the syscall layer
(`os/src/syscall/{mod,fs,process,info}.rs`) become pure Lean functions over
explicit state.  Machine `usize` values are modelled as `Nat`; theorems that
depend on the absence of 64-bit overflow carry that bound as a hypothesis.
The region bounds consumed by `range_check` (`app_stack_range` /
`app_address_range` from `os/src/batch.rs`, a memory-management collaborator
whose body is outside the verified sources) are universally-quantified
parameters, exactly as the spec describes them ("bounds supplied by the
memory-management collaborator").
-/

namespace RCoreCh3

/-- `TaskStatus` from `os/src/task/task.rs`. -/
inductive TaskStatus where
  | unInit
  | ready
  | running
  | exited
deriving DecidableEq

/-- Status-level projection of `TaskManagerInner` from `os/src/task/mod.rs`:
the task table (only the `task_status` field matters for scheduling) plus the
`current_task` cursor; `num_app` comes from the enclosing `TaskManager`. -/
structure SchedState where
  numApp : Nat
  tasks : List TaskStatus
  current : Nat
deriving DecidableEq

/-- `inner.tasks[i].task_status`; out-of-range reads default to `unInit`
(the Rust code never indexes out of range in the modelled operations). -/
def statusOf (tasks : List TaskStatus) (i : Nat) : TaskStatus :=
  tasks.getD i TaskStatus.unInit

/-- Boot initialisation of `TASK_MANAGER` (the `lazy_static` block in
`os/src/task/mod.rs`): a table of `MAX_APP_NUM` blocks, every slot set to
`Ready` by the init loop, `current_task = 0`, `num_app = get_num_app()`. -/
def bootState (maxApp n : Nat) : SchedState :=
  { numApp := n, tasks := List.replicate maxApp TaskStatus.ready, current := 0 }

/-- Status effect of `TaskManager::run_first_task`: slot 0 becomes `Running`
(the subsequent `__switch` transfers control and does not change statuses). -/
def run_first_task (s : SchedState) : SchedState :=
  { s with tasks := s.tasks.set 0 TaskStatus.running }

/-- `TaskManager::mark_current_suspended`: `tasks[current].task_status = Ready`. -/
def mark_current_suspended (s : SchedState) : SchedState :=
  { s with tasks := s.tasks.set s.current TaskStatus.ready }

/-- `TaskManager::mark_current_exited`: `tasks[current].task_status = Exited`
(the accompanying `info!` log carries no state). -/
def mark_current_exited (s : SchedState) : SchedState :=
  { s with tasks := s.tasks.set s.current TaskStatus.exited }

/-- `TaskManager::find_next_task`:
`(current + 1..current + num_app + 1).map(|id| id % num_app)
   .find(|id| inner.tasks[*id].task_status == TaskStatus::Ready)`. -/
def find_next_task (numApp : Nat) (tasks : List TaskStatus) (current : Nat) :
    Option Nat :=
  ((List.range numApp).map (fun k => (current + 1 + k) % numApp)).find?
    (fun id => statusOf tasks id == TaskStatus.ready)

/-- `TaskManager::run_next_task`: if `find_next_task` yields a slot, that slot
becomes `Running` and `current_task` moves to it (then `__switch` transfers
control); otherwise the kernel prints "All applications completed!" and calls
`shutdown(false)` — modelled as `none`. -/
def run_next_task (s : SchedState) : Option SchedState :=
  match find_next_task s.numApp s.tasks s.current with
  | some next =>
      some { s with tasks := s.tasks.set next TaskStatus.running, current := next }
  | none => none

/-- `suspend_current_and_run_next` from `os/src/task/mod.rs`. -/
def suspend_current_and_run_next (s : SchedState) : Option SchedState :=
  run_next_task (mark_current_suspended s)

/-- `exit_current_and_run_next` from `os/src/task/mod.rs`. -/
def exit_current_and_run_next (s : SchedState) : Option SchedState :=
  run_next_task (mark_current_exited s)

/-- Number of `Running` entries in the task table. -/
def countRunning (s : SchedState) : Nat :=
  (s.tasks.filter (fun st => st == TaskStatus.running)).length

/-- The four `TaskManager` operations named by the spec's scheduling claims,
as free transitions (no caller discipline). -/
inductive TMOp where
  | first
  | suspend
  | exited
  | next
deriving DecidableEq

/-- Apply one `TaskManager` operation; `run_next_task` with no `Ready`
candidate halts the machine (`none`). -/
def applyOp (op : TMOp) (s : SchedState) : Option SchedState :=
  match op with
  | TMOp.first => some (run_first_task s)
  | TMOp.suspend => some (mark_current_suspended s)
  | TMOp.exited => some (mark_current_exited s)
  | TMOp.next => run_next_task s

/-- Apply a sequence of `TaskManager` operations from a given state. -/
def applyOps (ops : List TMOp) (s : SchedState) : Option SchedState :=
  match ops with
  | [] => some s
  | op :: rest => (applyOp op s).bind (applyOps rest)

/-- States reachable under the call discipline the kernel actually has:
`run_first_task` is invoked once from `main` on the boot state, and afterwards
the only entry points that touch statuses are `suspend_current_and_run_next`
and `exit_current_and_run_next` (called from the trap handler and syscalls). -/
inductive DisciplinedReach (maxApp n : Nat) : SchedState → Prop where
  | boot : DisciplinedReach maxApp n (bootState maxApp n)
  | first : DisciplinedReach maxApp n (run_first_task (bootState maxApp n))
  | suspendNext {s s' : SchedState} : DisciplinedReach maxApp n s →
      suspend_current_and_run_next s = some s' → DisciplinedReach maxApp n s'
  | exitNext {s s' : SchedState} : DisciplinedReach maxApp n s →
      exit_current_and_run_next s = some s' → DisciplinedReach maxApp n s'

/-- Intermediate state of the run-to-exit schedule of claim C2: slots below
`k` have exited, slot `k` is running, the rest still hold their boot `Ready`
status; the cursor sits on `k`. -/
def midState (maxApp n k : Nat) : SchedState :=
  { numApp := n,
    tasks := (List.range maxApp).map
      (fun i => if i < k then TaskStatus.exited
                else if i = k then TaskStatus.running else TaskStatus.ready),
    current := k }

/-- Run up to `fuel` rounds of "current task exits, scheduler picks the next
slot" (`exit_current_and_run_next`).  Returns the list of slots scheduled
after each switch and whether the "All applications completed!" shutdown
branch was reached. -/
def exitRun (fuel : Nat) (s : SchedState) : List Nat × Bool :=
  match fuel with
  | 0 => ([], false)
  | Nat.succ fuel' =>
      match exit_current_and_run_next s with
      | some s' =>
          let p := exitRun fuel' s'
          (s'.current :: p.1, p.2)
      | none => ([], true)

/-- Outcome of one user-trap dispatch at status level. -/
inductive TrapOutcome where
  | switched (s : SchedState)
  | halted
  | panicked (msg : String)
deriving DecidableEq

/-- Trap causes of the non-syscall arms of `user_trap_handler` in
`os/src/trap/mod.rs` (the `UserEnvCall` arm is modelled separately by the
syscall dispatcher below). -/
inductive TrapCause where
  | storeFault
  | storePageFault
  | illegalInstruction
  | supervisorTimer
  | otherCause
deriving DecidableEq

/-- Status-level effect of `user_trap_handler` (`os/src/trap/mod.rs`) for the
exception/interrupt arms: store faults and illegal instructions run
`exit_current_and_run_next`, the timer runs `suspend_current_and_run_next`
(after `set_next_trigger`, which carries no task state), and any other cause
panics. -/
def user_trap_step (c : TrapCause) (s : SchedState) : TrapOutcome :=
  match c with
  | TrapCause.storeFault | TrapCause.storePageFault | TrapCause.illegalInstruction =>
      match exit_current_and_run_next s with
      | some s' => TrapOutcome.switched s'
      | none => TrapOutcome.halted
  | TrapCause.supervisorTimer =>
      match suspend_current_and_run_next s with
      | some s' => TrapOutcome.switched s'
      | none => TrapOutcome.halted
  | TrapCause.otherCause => TrapOutcome.panicked "Unsupported trap"

/-- `buf >= 0x80 && buf <= 0xBF`: a UTF-8 continuation byte. -/
def isCont (b : Nat) : Bool := 128 ≤ b && b ≤ 191

/-- Admissible second byte of a three-byte UTF-8 sequence, per the table used
by `core::str::from_utf8` (E0 excludes overlongs, ED excludes surrogates). -/
def validThreeSecond (b c1 : Nat) : Bool :=
  if b = 224 then 160 ≤ c1 && c1 ≤ 191
  else if b = 237 then 128 ≤ c1 && c1 ≤ 159
  else isCont c1

/-- Admissible second byte of a four-byte UTF-8 sequence, per the table used
by `core::str::from_utf8` (F0 excludes overlongs, F4 caps at U+10FFFF). -/
def validFourSecond (b c1 : Nat) : Bool :=
  if b = 240 then 144 ≤ c1 && c1 ≤ 191
  else if b = 244 then 128 ≤ c1 && c1 ≤ 143
  else isCont c1

/-- Model of the validation performed by `core::str::from_utf8` (called with
`.unwrap()` in `sys_write`): standard UTF-8 well-formedness of a byte list. -/
def utf8Valid (l : List Nat) : Bool :=
  match l with
  | [] => true
  | b :: rest =>
      if b ≤ 127 then utf8Valid rest
      else if 194 ≤ b && b ≤ 223 then
        match rest with
        | c1 :: r => isCont c1 && utf8Valid r
        | [] => false
      else if 224 ≤ b && b ≤ 239 then
        match rest with
        | c1 :: c2 :: r => validThreeSecond b c1 && isCont c2 && utf8Valid r
        | _ => false
      else if 240 ≤ b && b ≤ 244 then
        match rest with
        | c1 :: c2 :: c3 :: r =>
            validFourSecond b c1 && isCont c2 && isCont c3 && utf8Valid r
        | _ => false
      else false

/-- The byte slice `core::slice::from_raw_parts(buf, len)`: bytes of user
memory (`mem`, one byte per address) from `ptr` to `ptr + len - 1`. -/
def bufBytes (mem : Nat → Nat) (ptr len : Nat) : List Nat :=
  (List.range len).map (fun i => mem (ptr + i))

/-- `2^64`: one past the largest `usize` value of the rv64 target. -/
def USIZE : Nat := 18446744073709551616

/-- `range_check` from `os/src/syscall/fs.rs`:
`((buf >= stack_top && buf + len < stack_bottom)
  || (buf >= app_bottom && buf + len < app_top))`.
The sum `buf as usize + len` is `usize` arithmetic and wraps at `2^64` in
release builds, hence the `% USIZE` on the sum (only the sum can overflow:
`buf` and `len` are single registers).
`stack_top < stack_bottom` and `app_bottom < app_top` are the bounds returned
by `app_stack_range()` / `app_address_range()` (collaborator `os/src/batch.rs`),
taken here as parameters. -/
def range_check (stackTop stackBottom appBottom appTop ptr len : Nat) : Bool :=
  (stackTop ≤ ptr && (ptr + len) % USIZE < stackBottom)
    || (appBottom ≤ ptr && (ptr + len) % USIZE < appTop)

/-- `sys_write` from `os/src/syscall/fs.rs`: reject spans failing
`range_check` with `-1`; on fd 1 convert the byte slice with
`core::str::from_utf8(..).unwrap()` — a kernel panic (`Except.error`) when the
bytes are not valid UTF-8 — print it and return `len`; any other fd logs and
returns `-1`. -/
def sys_write (stackTop stackBottom appBottom appTop : Nat) (mem : Nat → Nat)
    (fd ptr len : Nat) : Except String Int :=
  if !(range_check stackTop stackBottom appBottom appTop ptr len) then
    Except.ok (-1)
  else match fd with
    | 1 =>
        if utf8Valid (bufBytes mem ptr len) then Except.ok (len : Int)
        else Except.error "called Result::unwrap on an Err value"
    | _ => Except.ok (-1)

/-- The Rust `as i32` cast of a `usize` syscall argument. -/
def toI32 (n : Nat) : Int :=
  if n % 4294967296 < 2147483648 then ((n % 4294967296 : Nat) : Int)
  else ((n % 4294967296 : Nat) : Int) - 4294967296

/-- Result of one syscall dispatch: a returned value written back into `x[10]`,
a task exit that never returns (`sys_exit`), or a kernel panic. -/
inductive SyscallOutcome where
  | ret (v : Int)
  | exitTask (code : Int)
  | panicked (msg : String)
deriving DecidableEq

/-- `syscall` from `os/src/syscall/mod.rs`: dispatch on the id —
64 → `sys_write(args[0], args[1] as *const u8, args[2])`,
93 → `sys_exit(args[0] as i32)` (never returns),
10001 → `sys_info_task()` (logs and returns 0),
anything else → `panic!("Unsupported syscall_id: ..")`. -/
def syscall (stackTop stackBottom appBottom appTop : Nat) (mem : Nat → Nat)
    (id : Nat) (args : Nat × Nat × Nat) : SyscallOutcome :=
  if id = 64 then
    match sys_write stackTop stackBottom appBottom appTop mem
        args.1 args.2.1 args.2.2 with
    | Except.ok v => SyscallOutcome.ret v
    | Except.error msg => SyscallOutcome.panicked msg
  else if id = 93 then SyscallOutcome.exitTask (toI32 args.1)
  else if id = 10001 then SyscallOutcome.ret 0
  else SyscallOutcome.panicked "Unsupported syscall_id"

/-- `TaskMetric` from `os/src/task/metric.rs`. -/
structure TaskMetric where
  user_cost_ms : Nat
  kernel_cost_ms : Nat
  tmp_time_marker : Nat
deriving DecidableEq

/-- `TaskMetric::mark_user_start`; `now` is `get_time_ms()`. -/
def TaskMetric.mark_user_start (now : Nat) (m : TaskMetric) : TaskMetric :=
  { m with tmp_time_marker := now }

/-- `TaskMetric::mark_user_end`; if no window is open (`tmp_time_marker == 0`)
it logs `error!(..)` and returns untouched, otherwise accumulates
`get_time_ms() - tmp_time_marker` into `user_cost_ms` and clears the marker. -/
def TaskMetric.mark_user_end (now : Nat) (m : TaskMetric) : TaskMetric :=
  if m.tmp_time_marker = 0 then m
  else { m with user_cost_ms := m.user_cost_ms + now - m.tmp_time_marker,
                tmp_time_marker := 0 }

/-- `TaskMetric::mark_kernel_start`; `now` is `get_time_ms()`. -/
def TaskMetric.mark_kernel_start (now : Nat) (m : TaskMetric) : TaskMetric :=
  { m with tmp_time_marker := now }

/-- `TaskMetric::mark_kernel_end`; the `tmp_time_marker == 0` guard logs and
returns untouched, otherwise accumulates into `kernel_cost_ms` and clears. -/
def TaskMetric.mark_kernel_end (now : Nat) (m : TaskMetric) : TaskMetric :=
  if m.tmp_time_marker = 0 then m
  else { m with kernel_cost_ms := m.kernel_cost_ms + now - m.tmp_time_marker,
                tmp_time_marker := 0 }

/-- One timing mark, as issued by `mark_{user,kernel}_time_{start,end}` on a
specific task.  The mark's kind records which `TaskMetric` method ran. -/
inductive MEvent where
  | ustart
  | uend
  | kstart
  | kend
deriving DecidableEq

/-- Machine state for the timing-window analysis (claim C5): scheduler state
plus, per task, the list of timing marks issued so far (`evs`) and whether the
task has ever been switched out mid-`run_next_task` (`resumed`), i.e. whether
its saved context resumes inside `run_next_task` (so that, once rescheduled,
control falls back through the tail of `user_trap_handler`, which issues
`mark_kernel_time_end(); mark_user_time_start()`) rather than entering user
mode directly through the boot `goto_restore` trampoline. -/
structure MachState where
  numApp : Nat
  tasks : List TaskStatus
  current : Nat
  evs : Nat → List MEvent
  resumed : Nat → Bool
  halted : Bool

/-- Append timing marks to task `i`'s log. -/
def emit (i : Nat) (es : List MEvent) (f : Nat → List MEvent) :
    Nat → List MEvent :=
  fun j => if j = i then f j ++ es else f j

/-- State right after `run_first_task`: the boot table with slot 0 `Running`,
and slot 0 carries the single `mark_user_start` issued by `run_first_task`. -/
def machAfterFirst (maxApp n : Nat) : MachState :=
  { numApp := n,
    tasks := (List.replicate maxApp TaskStatus.ready).set 0 TaskStatus.running,
    current := 0,
    evs := fun i => if i = 0 then [MEvent.ustart] else [],
    resumed := fun _ => false,
    halted := false }

/-- User-trap kinds for the timing machine: a syscall that returns in place
(e.g. `sys_write`), the timer preemption (suspend + reschedule), and a
task-terminating trap (fault, illegal instruction or `sys_exit`). -/
inductive MCause where
  | syscallRet
  | timer
  | exitLike
deriving DecidableEq

/-- The `run_next_task` call made by both `suspend_current_and_run_next` and
`exit_current_and_run_next` (`os/src/task/mod.rs`), with its timing marks, in
source order: mark the found slot `Running`, move `current_task`, issue
`mark_kernel_end` on the outgoing slot and `mark_user_start` on the incoming
slot, then `__switch`.  If the incoming task had itself been switched out
inside a `run_next_task` call before (`resumed`), the switch resumes it right
after its own `__switch`, so control falls back through the tail of its
suspended `user_trap_handler`, which issues a further
`mark_kernel_time_end(); mark_user_time_start()` before `sret` to user mode;
a never-run task instead enters user mode directly via its boot
`goto_restore` trampoline, with no extra marks.  With no `Ready` candidate,
`run_next_task` prints "All applications completed!" and shuts down. -/
def schedStep (s : MachState) (tasks1 : List TaskStatus)
    (evs1 : Nat → List MEvent) : MachState :=
  match find_next_task s.numApp tasks1 s.current with
  | some next =>
      let tasks2 := tasks1.set next TaskStatus.running
      let evs2 := emit next [MEvent.ustart] (emit s.current [MEvent.kend] evs1)
      let resumed1 := fun j => if j = s.current then true else s.resumed j
      let evs3 := if resumed1 next then emit next [MEvent.kend, MEvent.ustart] evs2
                  else evs2
      { s with tasks := tasks2, current := next, evs := evs3,
               resumed := resumed1 }
  | none => { s with evs := evs1, halted := true }

/-- One full user-trap round trip of `user_trap_handler`
(`os/src/trap/mod.rs`) with its timing marks, in source order: entry issues
`mark_user_time_end(); mark_kernel_time_start()` on the current task; a
non-scheduling syscall (e.g. `sys_write`) then returns through
`mark_kernel_time_end(); mark_user_time_start()`; the timer arm suspends the
current task and runs `schedStep`, the exit-like arms mark it `Exited` and
run `schedStep`.  A halted machine takes no further steps. -/
def mstep (c : MCause) (s : MachState) : MachState :=
  if s.halted then s
  else
    let evs1 := emit s.current [MEvent.uend, MEvent.kstart] s.evs
    match c with
    | MCause.syscallRet =>
        { s with evs := emit s.current [MEvent.kend, MEvent.ustart] evs1 }
    | MCause.timer => schedStep s (s.tasks.set s.current TaskStatus.ready) evs1
    | MCause.exitLike => schedStep s (s.tasks.set s.current TaskStatus.exited) evs1

/-- Run a sequence of user traps from a machine state. -/
def mrun (cs : List MCause) (s : MachState) : MachState :=
  match cs with
  | [] => s
  | c :: rest => mrun rest (mstep c s)

/-- Typed window bracketing: scan the marks left to right carrying the kind of
the currently open window (`none` = closed).  A start mark requires no open
window; an end mark requires an open window **of the same kind**.  Returns
`none` on the first violation. -/
def tfold (st : Option MEvent) (l : List MEvent) : Option (Option MEvent) :=
  match l with
  | [] => some st
  | e :: es =>
      match e, st with
      | MEvent.ustart, none => tfold (some MEvent.ustart) es
      | MEvent.kstart, none => tfold (some MEvent.kstart) es
      | MEvent.uend, some MEvent.ustart => tfold none es
      | MEvent.kend, some MEvent.kstart => tfold none es
      | _, _ => none

/-- A mark list is strictly kind-nested when the typed scan survives it. -/
def typedNestedOk (l : List MEvent) : Bool := (tfold none l).isSome

/-- Untyped window bracketing: carry only whether some window is open; every
start requires a closed state, every end an open one.  This is exactly the
`tmp_time_marker` discipline of `TaskMetric` (one marker for both kinds). -/
def wfold (b : Bool) (l : List MEvent) : Option Bool :=
  match l with
  | [] => some b
  | e :: es =>
      match e, b with
      | MEvent.ustart, false => wfold true es
      | MEvent.kstart, false => wfold true es
      | MEvent.uend, true => wfold false es
      | MEvent.kend, true => wfold false es
      | _, _ => none

/-- A mark list never overlaps windows: at most one window (of either kind) is
open at any point, opens happen only when closed, closes only when open. -/
def nonOverlappingOk (l : List MEvent) : Bool := (wfold false l).isSome

/-- The spec-side span-inclusion predicate: every address of the `count`-byte
span starting at `ptr` lies in the region `[lo, hi)`. -/
def spanWithin (ptr count lo hi : Nat) : Prop :=
  ∀ a, ptr ≤ a → a < ptr + count → lo ≤ a ∧ a < hi

/-- Timing-machine invariant: each task's mark log is non-overlapping, with a
window currently open exactly on the task the scheduler last dispatched. -/
def minv (s : MachState) : Prop :=
  ∀ i, wfold false (s.evs i) = some (decide (i = s.current))

/-! ## Helper lemmas -/

theorem statusOf_set (l : List TaskStatus) (i j : Nat) (v : TaskStatus) :
    statusOf (l.set i v) j =
      if i = j ∧ i < l.length then v else statusOf l j := by
  simp only [statusOf, List.getD_eq_getElem?_getD, List.getElem?_set]
  by_cases h1 : i = j
  · subst h1
    by_cases h2 : i < l.length
    · simp [h2]
    · simp [h2, List.getElem?_eq_none (by omega : l.length ≤ i)]
  · simp [h1]

theorem statusOf_map_range (f : Nat → TaskStatus) (m i : Nat) (hi : i < m) :
    statusOf ((List.range m).map f) i = f i := by
  simp [statusOf, List.getD_eq_getElem?_getD, List.getElem?_map,
    List.getElem?_range hi]

theorem find?_map_range_some {α : Type} (p : α → Bool) (f : Nat → α) (n : Nat)
    (a : α) :
    (((List.range n).map f).find? p = some a) ↔
      ∃ k, k < n ∧ f k = a ∧ p a = true ∧ ∀ k', k' < k → p (f k') = false := by
  induction n generalizing f with
  | zero => simp
  | succ m ih =>
    rw [List.range_succ_eq_map, List.map_cons, List.map_map]
    by_cases h0 : p (f 0) = true
    · rw [List.find?_cons_of_pos _ h0]
      constructor
      · intro h
        injection h with h
        exact ⟨0, Nat.succ_pos m, h, h ▸ h0,
          fun k' hk' => absurd hk' (Nat.not_lt_zero k')⟩
      · rintro ⟨k, hk, hfk, hpa, hmin⟩
        cases k with
        | zero => rw [hfk]
        | succ k' =>
            have := hmin 0 (Nat.succ_pos k')
            rw [this] at h0
            exact absurd h0 (by simp)
    · rw [List.find?_cons_of_neg _ h0]
      rw [ih (f ∘ Nat.succ)]
      have h0' : p (f 0) = false := by
        cases hpf : p (f 0)
        · rfl
        · exact absurd hpf h0
      constructor
      · rintro ⟨k, hk, hfk, hpa, hmin⟩
        refine ⟨k + 1, Nat.succ_lt_succ hk, hfk, hpa, fun k' hk' => ?_⟩
        cases k' with
        | zero => exact h0'
        | succ j => exact hmin j (Nat.lt_of_succ_lt_succ hk')
      · rintro ⟨k, hk, hfk, hpa, hmin⟩
        cases k with
        | zero =>
            rw [hfk] at h0'
            rw [h0'] at hpa
            exact absurd hpa (by simp)
        | succ j =>
            exact ⟨j, Nat.lt_of_succ_lt_succ hk, hfk, hpa,
              fun k' hk' => hmin (k' + 1) (Nat.succ_lt_succ hk')⟩

theorem find?_map_range_none {α : Type} (p : α → Bool) (f : Nat → α) (n : Nat) :
    (((List.range n).map f).find? p = none) ↔ ∀ k, k < n → p (f k) = false := by
  rw [List.find?_eq_none]
  constructor
  · intro h k hk
    have := h (f k) (List.mem_map.mpr ⟨k, List.mem_range.mpr hk, rfl⟩)
    cases hpf : p (f k)
    · rfl
    · exact absurd hpf this
  · intro h x hx
    rcases List.mem_map.mp hx with ⟨k, hk, rfl⟩
    simp [h k (List.mem_range.mp hk)]

theorem scan_mod_surj (c n i : Nat) (hn : 0 < n) (hi : i < n) :
    ∃ k, k < n ∧ (c + 1 + k) % n = i := by
  have hq : c + 1 = n * ((c + 1) / n) + (c + 1) % n :=
    (Nat.div_add_mod (c + 1) n).symm
  have hr : (c + 1) % n < n := Nat.mod_lt _ hn
  set r := (c + 1) % n with hrdef
  set q := (c + 1) / n with hqdef
  set m := n * q with hm
  by_cases hcase : r ≤ i
  · refine ⟨i - r, by omega, ?_⟩
    have he : c + 1 + (i - r) = m + i := by omega
    rw [he, hm, Nat.mul_add_mod, Nat.mod_eq_of_lt hi]
  · refine ⟨i + n - r, by omega, ?_⟩
    have he : c + 1 + (i + n - r) = m + n + i := by omega
    have he2 : m + n + i = n * (q + 1) + i := by rw [hm]; ring
    rw [he, he2, Nat.mul_add_mod, Nat.mod_eq_of_lt hi]

theorem find_next_task_some_iff (n : Nat) (tasks : List TaskStatus) (c j : Nat) :
    find_next_task n tasks c = some j ↔
      ∃ k, k < n ∧ (c + 1 + k) % n = j ∧
        statusOf tasks j = TaskStatus.ready ∧
        ∀ k', k' < k → statusOf tasks ((c + 1 + k') % n) ≠ TaskStatus.ready := by
  unfold find_next_task
  rw [find?_map_range_some]
  simp only [beq_iff_eq, beq_eq_false_iff_ne]

theorem find_next_task_none_iff (n : Nat) (tasks : List TaskStatus) (c : Nat)
    (hn : 0 < n) :
    find_next_task n tasks c = none ↔
      ∀ i, i < n → statusOf tasks i ≠ TaskStatus.ready := by
  unfold find_next_task
  rw [find?_map_range_none]
  constructor
  · intro h i hi hready
    obtain ⟨k, hk, hmod⟩ := scan_mod_surj c n i hn hi
    have hpk := h k hk
    rw [hmod] at hpk
    rw [hready] at hpk
    exact absurd hpk (by simp)
  · intro h k hk
    have hlt : (c + 1 + k) % n < n := Nat.mod_lt _ hn
    simp only [beq_eq_false_iff_ne]
    exact h _ hlt

theorem find_next_task_some_facts {n : Nat} {tasks : List TaskStatus}
    {c j : Nat} (h : find_next_task n tasks c = some j) :
    statusOf tasks j = TaskStatus.ready ∧ j < n := by
  unfold find_next_task at h
  have hp := List.find?_some h
  have hm := List.mem_of_find?_eq_some h
  rcases List.mem_map.mp hm with ⟨k, hk, rfl⟩
  have hn : 0 < n := by
    rcases Nat.eq_zero_or_pos n with h0 | h0
    · subst h0; simp at hk
    · exact h0
  exact ⟨by simpa using hp, Nat.mod_lt _ hn⟩

theorem list_set_getD_self (l : List TaskStatus) (n : Nat)
    (h : l.getD n TaskStatus.unInit = TaskStatus.ready) :
    l.set n TaskStatus.ready = l := by
  induction l generalizing n with
  | nil => rfl
  | cons a t ih =>
    cases n with
    | zero =>
        simp only [List.getD_cons_zero] at h
        simp [h]
    | succ m =>
        simp only [List.getD_cons_succ] at h
        simp [ih m h]

/-! ## Claim theorems -/

/-- C7 (confirmed): for every syscall id outside `{64, 93, 10001}` and every
argument triple (and any write environment), the dispatcher in
`os/src/syscall/mod.rs` hits the wildcard arm and panics — it never returns a
value and never silently ignores the call. -/
theorem unknown_syscall_id_panics (stackTop stackBottom appBottom appTop : Nat)
    (mem : Nat → Nat) (id : Nat) (args : Nat × Nat × Nat)
    (h64 : id ≠ 64) (h93 : id ≠ 93) (h10001 : id ≠ 10001) :
    syscall stackTop stackBottom appBottom appTop mem id args
      = SyscallOutcome.panicked "Unsupported syscall_id" := by
  unfold syscall
  rw [if_neg h64, if_neg h93, if_neg h10001]

/-- Witness for `unknown_syscall_id_panics` at id 17 with arbitrary
environment and arguments. -/
theorem unknown_syscall_id_panics_instance :
    syscall 16 32 48 64 (fun _ => 0) 17 (1, 2, 3)
      = SyscallOutcome.panicked "Unsupported syscall_id" :=
  unknown_syscall_id_panics 16 32 48 64 (fun _ => 0) 17 (1, 2, 3)
    (by decide) (by decide) (by decide)

/-- C8 (confirmed): with `tmp_time_marker == 0`, both `mark_user_end` and
`mark_kernel_end` (`os/src/task/metric.rs`) take the early-return logging
branch: `user_cost_ms`, `kernel_cost_ms` and `tmp_time_marker` are unchanged
and no panic is possible (the functions are total). -/
theorem metric_end_without_start_is_noop (now : Nat) (m : TaskMetric)
    (h : m.tmp_time_marker = 0) :
    TaskMetric.mark_user_end now m = m ∧ TaskMetric.mark_kernel_end now m = m := by
  constructor
  · unfold TaskMetric.mark_user_end
    rw [if_pos h]
  · unfold TaskMetric.mark_kernel_end
    rw [if_pos h]

/-- Witness for `metric_end_without_start_is_noop` on a concrete metric with
accumulated costs and a cleared marker. -/
theorem metric_end_without_start_is_noop_instance :
    TaskMetric.mark_user_end 100 ⟨7, 5, 0⟩ = ⟨7, 5, 0⟩ ∧
      TaskMetric.mark_kernel_end 100 ⟨7, 5, 0⟩ = ⟨7, 5, 0⟩ :=
  metric_end_without_start_is_noop 100 ⟨7, 5, 0⟩ rfl

/-- C9 (confirmed): if the current task's status is already `Ready`,
`mark_current_suspended` (`os/src/task/mod.rs`) leaves the whole scheduler
state unchanged, and in particular it is idempotent on the status table. -/
theorem mark_current_suspended_idempotent_on_ready (s : SchedState)
    (h : statusOf s.tasks s.current = TaskStatus.ready) :
    mark_current_suspended s = s ∧
      mark_current_suspended (mark_current_suspended s)
        = mark_current_suspended s := by
  have hset : s.tasks.set s.current TaskStatus.ready = s.tasks :=
    list_set_getD_self s.tasks s.current h
  constructor
  · unfold mark_current_suspended
    cases s with
    | mk numApp tasks current => simpa using hset
  · unfold mark_current_suspended
    simp [List.set_set]

/-- Witness for `mark_current_suspended_idempotent_on_ready`: a two-task table
whose current slot is already `Ready`. -/
theorem mark_current_suspended_idempotent_on_ready_instance :
    mark_current_suspended ⟨2, [TaskStatus.ready, TaskStatus.exited], 0⟩
        = ⟨2, [TaskStatus.ready, TaskStatus.exited], 0⟩ ∧
      mark_current_suspended
          (mark_current_suspended ⟨2, [TaskStatus.ready, TaskStatus.exited], 0⟩)
        = mark_current_suspended ⟨2, [TaskStatus.ready, TaskStatus.exited], 0⟩ :=
  mark_current_suspended_idempotent_on_ready
    ⟨2, [TaskStatus.ready, TaskStatus.exited], 0⟩ rfl

theorem statusOf_replicate_not_running (m i : Nat) :
    statusOf (List.replicate m TaskStatus.ready) i ≠ TaskStatus.running := by
  unfold statusOf
  rw [List.getD_eq_getElem?_getD]
  rcases Nat.lt_or_ge i m with h | h
  · rw [List.getElem?_replicate, if_pos h]
    simp
  · rw [List.getElem?_eq_none (by simpa using h)]
    simp

theorem statusOf_out_of_range {l : List TaskStatus} {i : Nat}
    (h : l.length ≤ i) : statusOf l i = TaskStatus.unInit := by
  unfold statusOf
  rw [List.getD_eq_getElem?_getD, List.getElem?_eq_none h]
  rfl

/-- In a state produced by `run_next_task` after marking the current task
non-`Running`, only the newly dispatched slot can be `Running`. -/
theorem run_next_only_new_running {s1 s' : SchedState}
    (hnorun : ∀ i, statusOf s1.tasks i ≠ TaskStatus.running)
    (hstep : run_next_task s1 = some s') :
    ∀ i, statusOf s'.tasks i = TaskStatus.running → i = s'.current := by
  unfold run_next_task at hstep
  cases hfind : find_next_task s1.numApp s1.tasks s1.current with
  | none => rw [hfind] at hstep; exact absurd hstep (by simp)
  | some next =>
      rw [hfind] at hstep
      injection hstep with hstep
      subst hstep
      intro i hi
      rw [statusOf_set] at hi
      by_cases hc : next = i ∧ next < s1.tasks.length
      · exact hc.1.symm
      · rw [if_neg hc] at hi
        exact absurd hi (hnorun i)

/-- After `mark_current_suspended` or `mark_current_exited` on a state whose
only possible `Running` slot is `current`, no slot is `Running` at all. -/
theorem set_current_clears_running {tasks : List TaskStatus} {cur : Nat}
    (v : TaskStatus) (hv : v ≠ TaskStatus.running)
    (honly : ∀ i, statusOf tasks i = TaskStatus.running → i = cur) :
    ∀ i, statusOf (tasks.set cur v) i ≠ TaskStatus.running := by
  intro i hi
  rw [statusOf_set] at hi
  by_cases hc : cur = i ∧ cur < tasks.length
  · rw [if_pos hc] at hi
    exact hv hi
  · rw [if_neg hc] at hi
    have hic := honly i hi
    subst hic
    have hlen : i < tasks.length := by
      by_contra hge
      rw [statusOf_out_of_range (by omega)] at hi
      exact absurd hi (by simp)
    exact hc ⟨rfl, hlen⟩

/-- Strengthened C4 invariant: in every state reachable under the kernel's
call discipline, a `Running` slot must be the `current_task` slot. -/
theorem disciplined_running_only_current (maxApp n : Nat) (s : SchedState)
    (h : DisciplinedReach maxApp n s) :
    ∀ i, statusOf s.tasks i = TaskStatus.running → i = s.current := by
  induction h with
  | boot =>
      intro i hi
      exact absurd hi (statusOf_replicate_not_running maxApp i)
  | first =>
      intro i hi
      unfold run_first_task bootState at hi ⊢
      rw [statusOf_set] at hi
      by_cases hc : 0 = i ∧ 0 < (List.replicate maxApp TaskStatus.ready).length
      · exact hc.1.symm
      · rw [if_neg hc] at hi
        exact absurd hi (statusOf_replicate_not_running maxApp i)
  | suspendNext hreach hstep ih =>
      exact run_next_only_new_running
        (set_current_clears_running TaskStatus.ready (by simp) ih) hstep
  | exitNext hreach hstep ih =>
      exact run_next_only_new_running
        (set_current_clears_running TaskStatus.exited (by simp) ih) hstep

/-- C4 counterexample: composing the four listed `TaskManager` operations
freely breaks the invariant — from the two-task boot state, `run_first_task`
followed by a bare `run_next_task` (no suspend/exit mark in between) leaves
slots 0 and 1 both `Running`. -/
theorem free_op_sequence_two_running :
    countRunning ((applyOps [TMOp.first, TMOp.next] (bootState 2 2)).getD
      (bootState 2 2)) = 2 := by decide

/-- C4 (corrected): the claim is false for free sequences of the four listed
operations (`free_op_sequence_two_running`: `run_first_task; run_next_task`
yields two `Running` blocks, because `run_next_task` marks the incoming slot
`Running` but relies on its callers to demote the outgoing slot first).
Amended to the call discipline the kernel actually has — `run_first_task`
once from boot, afterwards only the compounds
`suspend_current_and_run_next` / `exit_current_and_run_next` — at most one
`TaskControlBlock` in the table is `Running` in every reachable state. -/
theorem disciplined_reach_at_most_one_running (maxApp n : Nat)
    (s : SchedState) (h : DisciplinedReach maxApp n s) :
    ∀ i j, statusOf s.tasks i = TaskStatus.running →
      statusOf s.tasks j = TaskStatus.running → i = j := by
  intro i j hi hj
  rw [disciplined_running_only_current maxApp n s h i hi,
    disciplined_running_only_current maxApp n s h j hj]

/-- Witness for `disciplined_reach_at_most_one_running`: the state right
after `run_first_task` on a two-task boot, slots `i = j = 0`. -/
theorem disciplined_reach_at_most_one_running_instance :
    statusOf (run_first_task (bootState 2 2)).tasks 0 = TaskStatus.running ∧
      (0 : Nat) = 0 :=
  ⟨by decide,
   disciplined_reach_at_most_one_running 2 2
     (run_first_task (bootState 2 2)) (DisciplinedReach.first) 0 0
     (by decide) (by decide)⟩

/-- C3 (confirmed): for every task table and every cursor, `find_next_task`
(`os/src/task/mod.rs`) returns `some j` exactly when `j` is the first `Ready`
slot in the scan `current+1, .., current+num_app` taken modulo `num_app`, and
returns `none` exactly when no slot `i < num_app` is `Ready`.  (Slots at
indices `num_app ≤ i < MAX_APP_NUM` are never scanned.) -/
theorem find_next_task_round_robin_spec (n : Nat) (tasks : List TaskStatus)
    (c : Nat) (hn : 0 < n) :
    (∀ j, find_next_task n tasks c = some j ↔
        ∃ k, k < n ∧ (c + 1 + k) % n = j ∧
          statusOf tasks j = TaskStatus.ready ∧
          ∀ k', k' < k →
            statusOf tasks ((c + 1 + k') % n) ≠ TaskStatus.ready) ∧
    (find_next_task n tasks c = none ↔
        ∀ i, i < n → statusOf tasks i ≠ TaskStatus.ready) :=
  ⟨fun j => find_next_task_some_iff n tasks c j,
   find_next_task_none_iff n tasks c hn⟩

/-- Witness for `find_next_task_round_robin_spec`: two slots, slot 0 exited,
slot 1 ready, cursor at 0. -/
theorem find_next_task_round_robin_spec_instance :
    (∀ j, find_next_task 2 [TaskStatus.exited, TaskStatus.ready] 0 = some j ↔
        ∃ k, k < 2 ∧ (0 + 1 + k) % 2 = j ∧
          statusOf [TaskStatus.exited, TaskStatus.ready] j = TaskStatus.ready ∧
          ∀ k', k' < k →
            statusOf [TaskStatus.exited, TaskStatus.ready] ((0 + 1 + k') % 2)
              ≠ TaskStatus.ready) ∧
    (find_next_task 2 [TaskStatus.exited, TaskStatus.ready] 0 = none ↔
        ∀ i, i < 2 →
          statusOf [TaskStatus.exited, TaskStatus.ready] i ≠ TaskStatus.ready) :=
  find_next_task_round_robin_spec 2 [TaskStatus.exited, TaskStatus.ready] 0
    (by decide)

theorem spanWithin_succ_iff (ptr len lo hi : Nat) :
    spanWithin ptr (len + 1) lo hi ↔ lo ≤ ptr ∧ ptr + len < hi := by
  unfold spanWithin
  constructor
  · intro h
    have h1 := h ptr (Nat.le_refl ptr) (by omega)
    have h2 := h (ptr + len) (by omega) (by omega)
    omega
  · rintro ⟨h1, h2⟩ a ha1 ha2
    omega

/-- C1 counterexample: with stack region `[16, 32)` and app region `[48, 64)`,
the span `[16, 32)` (`ptr = 16`, `len = 16`) lies entirely within the stack
region and holds valid UTF-8, yet `sys_write(1, ..)` returns `-1`, because
`range_check` (`os/src/syscall/fs.rs`) demands `ptr + len < stack_bottom`
strictly. -/
theorem sys_write_rejects_full_region_span :
    spanWithin 16 16 16 32 ∧
      utf8Valid (bufBytes (fun _ => 65) 16 16) = true ∧
      sys_write 16 32 48 64 (fun _ => 65) 1 16 16 = Except.ok (-1) :=
  ⟨fun _ h1 h2 => ⟨h1, by omega⟩, rfl, rfl⟩

/-- C1 (corrected): buffer validation of `sys_write(fd = 1, ptr, len)`.  As
stated the claim fails (`sys_write_rejects_full_region_span`): `range_check`
requires `ptr + len` to be *strictly* below the region's upper bound, so the
code validates the closed span `[ptr, ptr + len]` — one byte past the span
that is written.  Amended: provided `ptr + len` does not overflow `usize`
(the sum in `range_check` is wrapping `usize` arithmetic, so a wrapping
`ptr, len` pair can sneak past the check — yet another failure of the span
reading, disclosed here as the hypothesis `hlen`) and the buffer bytes are
valid UTF-8 (otherwise the call panics instead, claim C10),
`sys_write(1, ptr, len)` returns `len` iff the closed span `[ptr, ptr + len]`
lies entirely within the stack region or entirely within the app region, and
returns `-1` otherwise; in particular `ptr = stack_top`,
`len = stack_bottom - stack_top - 1` still succeeds and
`ptr = stack_top - 1` with that length still fails. -/
theorem sys_write_success_characterization
    (stackTop stackBottom appBottom appTop ptr len : Nat) (mem : Nat → Nat)
    (hlen : ptr + len < USIZE)
    (hutf : utf8Valid (bufBytes mem ptr len) = true) :
    (sys_write stackTop stackBottom appBottom appTop mem 1 ptr len
        = Except.ok (len : Int) ↔
      spanWithin ptr (len + 1) stackTop stackBottom ∨
        spanWithin ptr (len + 1) appBottom appTop) ∧
    (¬(spanWithin ptr (len + 1) stackTop stackBottom ∨
        spanWithin ptr (len + 1) appBottom appTop) →
      sys_write stackTop stackBottom appBottom appTop mem 1 ptr len
        = Except.ok (-1)) := by
  have hrc : range_check stackTop stackBottom appBottom appTop ptr len = true ↔
      (spanWithin ptr (len + 1) stackTop stackBottom ∨
        spanWithin ptr (len + 1) appBottom appTop) := by
    rw [spanWithin_succ_iff, spanWithin_succ_iff]
    unfold range_check
    rw [Nat.mod_eq_of_lt hlen]
    simp [Bool.or_eq_true, Bool.and_eq_true, decide_eq_true_eq]
  have hres : sys_write stackTop stackBottom appBottom appTop mem 1 ptr len =
      (if range_check stackTop stackBottom appBottom appTop ptr len
        then Except.ok (len : Int) else Except.ok (-1)) := by
    unfold sys_write
    cases hb : range_check stackTop stackBottom appBottom appTop ptr len
    · simp
    · simp [hutf]
  constructor
  · rw [hres]
    cases hb : range_check stackTop stackBottom appBottom appTop ptr len
    · rw [if_neg (by simp [hb])]
      constructor
      · intro h
        exfalso
        injection h with h
        omega
      · intro hdisj
        exfalso
        rw [hrc.mpr hdisj] at hb
        exact Bool.false_ne_true hb.symm
    · rw [if_pos (by simp [hb])]
      exact iff_of_true rfl (hrc.mp hb)
  · intro hnd
    rw [hres]
    cases hb : range_check stackTop stackBottom appBottom appTop ptr len
    · simp
    · exact absurd (hrc.mp hb) hnd

/-- Witness for `sys_write_success_characterization`: stack region `[16, 32)`,
app region `[48, 64)`, an 8-byte ASCII buffer at 16 (no `usize` overflow). -/
theorem sys_write_success_characterization_instance :
    (sys_write 16 32 48 64 (fun _ => 65) 1 16 8 = Except.ok 8 ↔
      spanWithin 16 9 16 32 ∨ spanWithin 16 9 48 64) ∧
    (¬(spanWithin 16 9 16 32 ∨ spanWithin 16 9 48 64) →
      sys_write 16 32 48 64 (fun _ => 65) 1 16 8 = Except.ok (-1)) :=
  sys_write_success_characterization 16 32 48 64 16 8 (fun _ => 65)
    (by decide) rfl

theorem map_range_set (f : Nat → TaskStatus) (m k : Nat) (v : TaskStatus)
    (hk : k < m) :
    ((List.range m).map f).set k v
      = (List.range m).map (fun i => if i = k then v else f i) := by
  apply List.ext_getElem?
  intro i
  rw [List.getElem?_set]
  by_cases hi : i < m
  · simp only [List.getElem?_map, List.getElem?_range hi, Option.map_some']
    by_cases hik : k = i
    · subst hik
      rw [if_pos rfl, if_pos (by simp [List.length_map, List.length_range, hk])]
      simp
    · rw [if_neg hik, if_neg (fun h => hik h.symm)]
  · have hnone : ((List.range m).map f)[i]? = none :=
      List.getElem?_eq_none (by simp [List.length_map, List.length_range]; omega)
    have hnone2 : ((List.range m).map
        (fun i => if i = k then v else f i))[i]? = none :=
      List.getElem?_eq_none (by simp [List.length_map, List.length_range]; omega)
    rw [hnone2]
    by_cases hik : k = i
    · rw [if_pos hik]
      rw [if_neg (by simp [List.length_map, List.length_range]; omega)]
    · rw [if_neg hik, hnone]

theorem replicate_eq_map_range (m : Nat) (v : TaskStatus) :
    List.replicate m v = (List.range m).map (fun _ => v) := by
  show List.replicate m v = (List.range m).map (Function.const Nat v)
  rw [List.map_const, List.length_range]

theorem run_first_boot_eq_mid (maxApp n : Nat) :
    run_first_task (bootState maxApp n) = midState maxApp n 0 := by
  have hl : (List.replicate maxApp TaskStatus.ready).set 0 TaskStatus.running
      = (List.range maxApp).map
          (fun i => if i < 0 then TaskStatus.exited
            else if i = 0 then TaskStatus.running else TaskStatus.ready) := by
    by_cases hm : 0 < maxApp
    · rw [replicate_eq_map_range, map_range_set _ _ _ _ hm]
      refine List.map_congr_left (fun i _ => ?_)
      split_ifs <;> first | rfl | omega
    · have hm0 : maxApp = 0 := by omega
      subst hm0
      rfl
  show SchedState.mk n
      ((List.replicate maxApp TaskStatus.ready).set 0 TaskStatus.running) 0
    = midState maxApp n 0
  rw [hl]
  rfl

theorem mark_exited_mid (maxApp n k : Nat) (hk : k < maxApp) :
    (mark_current_exited (midState maxApp n k)).tasks
      = (List.range maxApp).map
          (fun i => if i ≤ k then TaskStatus.exited else TaskStatus.ready) := by
  show ((List.range maxApp).map _).set k TaskStatus.exited = _
  rw [map_range_set _ _ _ _ hk]
  refine List.map_congr_left (fun i _ => ?_)
  split_ifs <;> first | rfl | omega

theorem exit_step_mid (maxApp n k : Nat) (hk1 : k + 1 < n) (hn : n ≤ maxApp) :
    exit_current_and_run_next (midState maxApp n k)
      = some (midState maxApp n (k + 1)) := by
  have hkm : k < maxApp := by omega
  have hk1m : k + 1 < maxApp := by omega
  have htasks1 := mark_exited_mid maxApp n k hkm
  have hfind : find_next_task (mark_current_exited (midState maxApp n k)).numApp
      (mark_current_exited (midState maxApp n k)).tasks
      (mark_current_exited (midState maxApp n k)).current = some (k + 1) := by
    rw [htasks1]
    show find_next_task n _ k = some (k + 1)
    obtain ⟨m, rfl⟩ : ∃ m, n = m + 1 := ⟨n - 1, by omega⟩
    unfold find_next_task
    rw [List.range_succ_eq_map, List.map_cons]
    simp only [Nat.add_zero, Nat.mod_eq_of_lt hk1]
    refine List.find?_cons_of_pos _ ?_
    show (statusOf ((List.range maxApp).map
        (fun i => if i ≤ k then TaskStatus.exited else TaskStatus.ready)) (k + 1)
          == TaskStatus.ready) = true
    rw [statusOf_map_range _ _ _ hk1m, if_neg (by omega)]
    rfl
  unfold exit_current_and_run_next run_next_task
  rw [hfind]
  refine congrArg some ?_
  show SchedState.mk n ((mark_current_exited (midState maxApp n k)).tasks.set
      (k + 1) TaskStatus.running) (k + 1) = midState maxApp n (k + 1)
  rw [htasks1, map_range_set _ _ _ _ hk1m]
  refine congrArg (fun l => SchedState.mk n l (k + 1)) ?_
  refine List.map_congr_left (fun i _ => ?_)
  split_ifs <;> first | rfl | omega

theorem exit_last_mid (maxApp n k : Nat) (_hk : k < n) (hkn : k + 1 = n)
    (hn : n ≤ maxApp) :
    exit_current_and_run_next (midState maxApp n k) = none := by
  have hkm : k < maxApp := by omega
  have htasks1 := mark_exited_mid maxApp n k hkm
  have hfind : find_next_task (mark_current_exited (midState maxApp n k)).numApp
      (mark_current_exited (midState maxApp n k)).tasks
      (mark_current_exited (midState maxApp n k)).current = none := by
    rw [htasks1]
    show find_next_task n _ k = none
    rw [find_next_task_none_iff _ _ _ (by omega)]
    intro i hi
    rw [statusOf_map_range _ _ _ (by omega)]
    rw [if_pos (by omega)]
    simp
  unfold exit_current_and_run_next run_next_task
  rw [hfind]

theorem exitRun_mid (maxApp n : Nat) (hn : n ≤ maxApp) :
    ∀ fuel k, k < n → fuel = n - k →
      exitRun fuel (midState maxApp n k)
        = ((List.range (n - (k + 1))).map (fun j => k + 1 + j), true) := by
  intro fuel
  induction fuel with
  | zero =>
      intro k hk hf
      omega
  | succ f ih =>
      intro k hk hf
      by_cases hlast : k + 1 < n
      · show (match exit_current_and_run_next (midState maxApp n k) with
          | some s' => (s'.current :: (exitRun f s').1, (exitRun f s').2)
          | none => ([], true)) = _
        rw [exit_step_mid maxApp n k hlast hn]
        show ((midState maxApp n (k + 1)).current
            :: (exitRun f (midState maxApp n (k + 1))).1,
          (exitRun f (midState maxApp n (k + 1))).2) = _
        rw [ih (k + 1) hlast (by omega)]
        show ((k + 1) :: (List.range (n - (k + 2))).map (fun j => k + 2 + j), true)
          = _
        rw [show n - (k + 1) = (n - (k + 2)) + 1 by omega]
        rw [List.range_succ_eq_map, List.map_cons, List.map_map]
        refine congrArg (fun l => (l, true)) ?_
        refine congrArg₂ List.cons (by omega) ?_
        refine List.map_congr_left (fun j _ => ?_)
        show k + 2 + j = k + 1 + Nat.succ j
        omega
      · show (match exit_current_and_run_next (midState maxApp n k) with
          | some s' => (s'.current :: (exitRun f s').1, (exitRun f s').2)
          | none => ([], true)) = _
        rw [exit_last_mid maxApp n k hk (by omega) hn]
        rw [show n - (k + 1) = 0 by omega]
        rfl

/-- C2 (confirmed): for `1 ≤ N ≤ MAX_APP_NUM` tasks, all initially `Ready`,
the schedule that starts with `run_first_task` and in which every scheduled
task immediately exits (`exit_current_and_run_next`, no yields) dispatches
slots `0, 1, .., N-1` exactly once each in increasing order, and then reaches
the "All applications completed!" + `shutdown(false)` branch (the `true`
flag). -/
theorem exit_only_schedule_visits_slots_in_order (maxApp n : Nat)
    (h1 : 1 ≤ n) (h2 : n ≤ maxApp) :
    0 :: (exitRun n (run_first_task (bootState maxApp n))).1 = List.range n ∧
      (exitRun n (run_first_task (bootState maxApp n))).2 = true := by
  rw [run_first_boot_eq_mid]
  rw [exitRun_mid maxApp n h2 n 0 (by omega) (by omega)]
  refine ⟨?_, rfl⟩
  show 0 :: (List.range (n - 1)).map (fun j => 0 + 1 + j) = List.range n
  obtain ⟨m, rfl⟩ : ∃ m, n = m + 1 := ⟨n - 1, by omega⟩
  rw [List.range_succ_eq_map]
  simp only [Nat.add_sub_cancel]
  refine congrArg₂ List.cons rfl ?_
  refine List.map_congr_left (fun j _ => ?_)
  show 0 + 1 + j = Nat.succ j
  omega

/-- Witness for `exit_only_schedule_visits_slots_in_order`: two loaded tasks
in a three-slot table. -/
theorem exit_only_schedule_visits_slots_in_order_instance :
    0 :: (exitRun 2 (run_first_task (bootState 3 2))).1 = List.range 2 ∧
      (exitRun 2 (run_first_task (bootState 3 2))).2 = true :=
  exit_only_schedule_visits_slots_in_order 3 2 (by decide) (by decide)

/-- C6 (confirmed): on an illegal-instruction user trap
(`user_trap_handler`, `os/src/trap/mod.rs`), the current task becomes
`Exited`; if the dispatcher switches, the incoming slot was `Ready` and is
now `Running` while the faulting slot stays `Exited`; the dispatcher halts
(power-off) exactly when no `Ready` slot remains; and this arm can never
reach the kernel panic (only the unsupported-cause arm panics). -/
theorem illegal_instruction_isolates_task (s : SchedState)
    (hn : 0 < s.numApp) (hcur : s.current < s.tasks.length)
    (hlen : s.numApp ≤ s.tasks.length) :
    (∀ s', user_trap_step TrapCause.illegalInstruction s
          = TrapOutcome.switched s' →
        statusOf s'.tasks s.current = TaskStatus.exited ∧
        statusOf s'.tasks s'.current = TaskStatus.running ∧
        statusOf (mark_current_exited s).tasks s'.current = TaskStatus.ready) ∧
    (user_trap_step TrapCause.illegalInstruction s = TrapOutcome.halted ↔
        ∀ i, i < s.numApp →
          statusOf (mark_current_exited s).tasks i ≠ TaskStatus.ready) ∧
    (∀ msg, user_trap_step TrapCause.illegalInstruction s
        ≠ TrapOutcome.panicked msg) := by
  have hexited : statusOf (mark_current_exited s).tasks s.current
      = TaskStatus.exited := by
    show statusOf (s.tasks.set s.current TaskStatus.exited) s.current = _
    rw [statusOf_set]
    exact if_pos ⟨rfl, hcur⟩
  have hlen1 : (mark_current_exited s).tasks.length = s.tasks.length := by
    show (s.tasks.set s.current TaskStatus.exited).length = _
    simp
  have hnum : (mark_current_exited s).numApp = s.numApp := rfl
  unfold user_trap_step exit_current_and_run_next run_next_task
  cases hfind : find_next_task (mark_current_exited s).numApp
      (mark_current_exited s).tasks (mark_current_exited s).current with
  | none =>
      refine ⟨?_, ?_, ?_⟩
      · intro s' hs'
        simp at hs'
      · have hnone := (find_next_task_none_iff (mark_current_exited s).numApp
          (mark_current_exited s).tasks (mark_current_exited s).current hn).mp hfind
        exact iff_of_true rfl hnone
      · intro msg
        simp
  | some next =>
      obtain ⟨hready, hnextlt⟩ := find_next_task_some_facts hfind
      have hne : next ≠ s.current := by
        intro he
        rw [he] at hready
        rw [hexited] at hready
        exact absurd hready (by simp)
      refine ⟨?_, ?_, ?_⟩
      · intro s' hs'
        injection hs' with hs'
        subst hs'
        refine ⟨?_, ?_, hready⟩
        · show statusOf ((mark_current_exited s).tasks.set next
            TaskStatus.running) s.current = _
          rw [statusOf_set, if_neg]
          · exact hexited
          · rintro ⟨h1, _⟩
            exact hne h1
        · show statusOf ((mark_current_exited s).tasks.set next
            TaskStatus.running) next = _
          rw [statusOf_set]
          exact if_pos ⟨rfl, by omega⟩
      · constructor
        · intro h
          simp at h
        · intro hno
          exact absurd hready (hno next (by omega))
      · intro msg
        simp

/-- Witness for `illegal_instruction_isolates_task`: two tasks, slot 0
running, slot 1 ready; the illegal-instruction trap exits slot 0 and
dispatches slot 1. -/
theorem illegal_instruction_isolates_task_instance :
    (∀ s', user_trap_step TrapCause.illegalInstruction
          ⟨2, [TaskStatus.running, TaskStatus.ready], 0⟩
          = TrapOutcome.switched s' →
        statusOf s'.tasks 0 = TaskStatus.exited ∧
        statusOf s'.tasks s'.current = TaskStatus.running ∧
        statusOf (mark_current_exited
            ⟨2, [TaskStatus.running, TaskStatus.ready], 0⟩).tasks s'.current
          = TaskStatus.ready) ∧
    (user_trap_step TrapCause.illegalInstruction
          ⟨2, [TaskStatus.running, TaskStatus.ready], 0⟩ = TrapOutcome.halted ↔
        ∀ i, i < 2 →
          statusOf (mark_current_exited
              ⟨2, [TaskStatus.running, TaskStatus.ready], 0⟩).tasks i
            ≠ TaskStatus.ready) ∧
    (∀ msg, user_trap_step TrapCause.illegalInstruction
          ⟨2, [TaskStatus.running, TaskStatus.ready], 0⟩
        ≠ TrapOutcome.panicked msg) :=
  illegal_instruction_isolates_task
    ⟨2, [TaskStatus.running, TaskStatus.ready], 0⟩
    (by decide) (by decide) (by decide)

theorem emit_same (i : Nat) (es : List MEvent) (f : Nat → List MEvent) :
    emit i es f i = f i ++ es := by
  simp [emit]

theorem emit_other {i j : Nat} (es : List MEvent) (f : Nat → List MEvent)
    (h : j ≠ i) : emit i es f j = f j := by
  simp [emit, h]

theorem wfold_append (b : Bool) (l l' : List MEvent) :
    wfold b (l ++ l') = (wfold b l).bind (fun b' => wfold b' l') := by
  induction l generalizing b with
  | nil => simp [wfold]
  | cons e es ih =>
      cases e <;> cases b <;> simp [wfold, ih]

theorem minv_machAfterFirst (maxApp n : Nat) : minv (machAfterFirst maxApp n) := by
  intro i
  show wfold false (if i = 0 then [MEvent.ustart] else []) = some (decide (i = 0))
  by_cases h : i = 0 <;> simp [h, wfold]

theorem minv_schedStep (s : MachState) (tasks1 : List TaskStatus)
    (evs1 : Nat → List MEvent)
    (hp : ∀ i, wfold false (evs1 i) = some (decide (i = s.current))) :
    minv (schedStep s tasks1 evs1) := by
  unfold schedStep
  cases hfind : find_next_task s.numApp tasks1 s.current with
  | none => exact hp
  | some next =>
      intro i
      show wfold false
          ((if (if next = s.current then true else s.resumed next) = true
            then emit next [MEvent.kend, MEvent.ustart]
              (emit next [MEvent.ustart] (emit s.current [MEvent.kend] evs1))
            else emit next [MEvent.ustart]
              (emit s.current [MEvent.kend] evs1)) i)
        = some (decide (i = next))
      by_cases hin : i = next
      · by_cases hic : i = s.current
        · have hnc : next = s.current := hin.symm.trans hic
          subst hnc
          subst hin
          rw [if_pos (by simp)]
          rw [emit_same, emit_same, emit_same]
          rw [wfold_append, wfold_append, wfold_append, hp]
          simp [wfold]
        · have hnc : ¬(next = s.current) := fun hh => hic (hin.trans hh)
          subst hin
          rw [if_neg hnc]
          by_cases hres : s.resumed i = true
          · rw [if_pos hres]
            rw [emit_same, emit_same, emit_other _ _ hic]
            rw [wfold_append, wfold_append, hp]
            simp [wfold, hic]
          · rw [if_neg hres]
            rw [emit_same, emit_other _ _ hic]
            rw [wfold_append, hp]
            simp [wfold, hic]
      · by_cases hic : i = s.current
        · subst hic
          by_cases hres : (if next = s.current then true else s.resumed next) = true
          · rw [if_pos hres]
            rw [emit_other _ _ hin, emit_other _ _ hin, emit_same]
            rw [wfold_append, hp]
            simp [wfold, hin]
          · rw [if_neg hres]
            rw [emit_other _ _ hin, emit_same]
            rw [wfold_append, hp]
            simp [wfold, hin]
        · by_cases hres : (if next = s.current then true else s.resumed next) = true
          · rw [if_pos hres]
            rw [emit_other _ _ hin, emit_other _ _ hin, emit_other _ _ hic]
            rw [hp]
            simp [hic, hin]
          · rw [if_neg hres]
            rw [emit_other _ _ hin, emit_other _ _ hic]
            rw [hp]
            simp [hic, hin]

theorem minv_mstep (c : MCause) (s : MachState) (h : minv s) :
    minv (mstep c s) := by
  unfold mstep
  cases hhalt : s.halted with
  | true => simpa using h
  | false =>
      have hp : ∀ i, wfold false
          ((emit s.current [MEvent.uend, MEvent.kstart] s.evs) i)
          = some (decide (i = s.current)) := by
        intro i
        by_cases hic : i = s.current
        · subst hic
          rw [emit_same, wfold_append, h]
          simp [wfold]
        · rw [emit_other _ _ hic]
          exact h i
      simp only [Bool.false_eq_true, if_false]
      cases c with
      | syscallRet =>
          intro i
          show wfold false ((emit s.current [MEvent.kend, MEvent.ustart]
              (emit s.current [MEvent.uend, MEvent.kstart] s.evs)) i)
            = some (decide (i = s.current))
          by_cases hic : i = s.current
          · subst hic
            rw [emit_same, wfold_append, hp]
            simp [wfold]
          · rw [emit_other _ _ hic]
            exact hp i
      | timer => exact minv_schedStep s _ _ hp
      | exitLike => exact minv_schedStep s _ _ hp

theorem minv_mrun (cs : List MCause) (s : MachState) (h : minv s) :
    minv (mrun cs s) := by
  induction cs generalizing s with
  | nil => exact h
  | cons c rest ih => exact ih (mstep c s) (minv_mstep c s h)

/-- C5 counterexample: with two tasks, `run_first_task` followed by two timer
preemptions is a reachable trace; in it task 0's timing marks are
`[ustart, uend, kstart, kend, ustart, kend, ustart]`: when task 0 is
rescheduled, `run_next_task` opens its user window (`mark_user_start`), and
the tail of task 0's suspended trap handler then immediately issues
`mark_kernel_time_end` — an end of the *kernel* kind closing a window opened
as a *user* window — so the typed strict-nesting discipline of the claim
fails on this trace. -/
theorem typed_window_nesting_fails_on_reschedule :
    (mrun [MCause.timer, MCause.timer] (machAfterFirst 2 2)).evs 0
        = [MEvent.ustart, MEvent.uend, MEvent.kstart, MEvent.kend,
           MEvent.ustart, MEvent.kend, MEvent.ustart] ∧
      typedNestedOk ((mrun [MCause.timer, MCause.timer]
          (machAfterFirst 2 2)).evs 0) = false :=
  ⟨by decide, by decide⟩

/-- C5 (corrected): the claim's typed strict nesting ("at most one window of
each kind open, user closed before kernel opens and vice versa, with ends
matching the kind of the open window") fails on the code
(`typed_window_nesting_fails_on_reschedule`): after a suspended task is
rescheduled, the trap-return path closes the freshly opened user window with
`mark_kernel_time_end`.  Amended to what the single `tmp_time_marker`
discipline actually guarantees: per task, in every trace from
`run_first_task`, windows never overlap — at most one window (of either
kind) is open at any time, every start mark occurs with no window open and
every end mark with one open. -/
theorem timing_windows_never_overlap (maxApp n : Nat) (cs : List MCause)
    (i : Nat) :
    nonOverlappingOk ((mrun cs (machAfterFirst maxApp n)).evs i) = true := by
  have hm := minv_mrun cs (machAfterFirst maxApp n)
    (minv_machAfterFirst maxApp n)
  unfold nonOverlappingOk
  rw [hm i]
  rfl

/-- C10 (confirmed): there is a `sys_write(fd = 1, ..)` call whose span passes
`range_check` but whose bytes are not valid UTF-8, and on it `sys_write`
(`os/src/syscall/fs.rs`) reaches the `.unwrap()` panic instead of returning
`len` or `-1`: with stack region `[16, 32)`, a one-byte buffer at 16 holding
the byte `0xFF`.  The success path is total only on valid-UTF-8 buffers. -/
theorem sys_write_panics_on_invalid_utf8 :
    range_check 16 32 48 64 16 1 = true ∧
      utf8Valid (bufBytes (fun _ => 255) 16 1) = false ∧
      sys_write 16 32 48 64 (fun _ => 255) 1 16 1
        = Except.error "called Result::unwrap on an Err value" :=
  ⟨rfl, rfl, rfl⟩

end RCoreCh3

